import Mathlib

/-!
# TailClip: a verification development of the sync core

Shallow embedding of the TailClip clipboard-synchronization program
(hub + agent) and proofs about its core components: the event model,
SHA-256 content hashing, the shared-secret authentication front door,
the hub's push handler and fan-out broadcaster, the SQLite-backed
event log, the agent's dedup cache, clipboard poll tick and
WebSocket receive loop.

Machine integers are modelled as `Nat` with explicit reduction
modulo 2^32 where 32-bit overflow matters (the SHA-256 compression
function). Time instants are modelled as `Nat` (an abstract clock;
the Go code uses `time.Time`, and `time.Since(x) = now - x`).
Strings are Lean `String`s; where the Go code operates on raw UTF-8
bytes (`len`, byte slicing, `[]byte(s)`), the model works on the
explicit UTF-8 byte list of the string.
-/

set_option maxRecDepth 10000

namespace TailClip

/-! ## UTF-8 byte encoding

Go's `[]byte(s)` yields the UTF-8 encoding of the string; `len(s)` is
the number of UTF-8 bytes. We encode each scalar value by the standard
UTF-8 scheme. -/

/-- UTF-8 bytes of one character (standard 1–4 byte encoding). -/
def utf8EncodeChar (c : Char) : List Nat :=
  let n := c.toNat
  if n < 0x80 then [n]
  else if n < 0x800 then
    [0xC0 ||| (n >>> 6), 0x80 ||| (n &&& 0x3F)]
  else if n < 0x10000 then
    [0xE0 ||| (n >>> 12), 0x80 ||| ((n >>> 6) &&& 0x3F), 0x80 ||| (n &&& 0x3F)]
  else
    [0xF0 ||| (n >>> 18), 0x80 ||| ((n >>> 12) &&& 0x3F),
     0x80 ||| ((n >>> 6) &&& 0x3F), 0x80 ||| (n &&& 0x3F)]

/-- UTF-8 bytes of a string, i.e. Go's `[]byte(s)`. -/
def utf8Encode (s : String) : List Nat :=
  (s.data.map utf8EncodeChar).flatten

/-! ## SHA-256 (crypto/sha256)

A faithful executable embedding of SHA-256 over byte lists, used by
`Event.ComputeTextHash` and `GetClipboardHash` in the source. All word
arithmetic is on `Nat` reduced modulo 2^32. -/

/-- Reduce to a 32-bit word. -/
def w32 (n : Nat) : Nat := n % 4294967296

/-- Rotate a 32-bit word right by `n`. -/
def rotr (n x : Nat) : Nat := w32 ((x >>> n) ||| (x <<< (32 - n)))

def bsig0 (x : Nat) : Nat := rotr 2 x ^^^ rotr 13 x ^^^ rotr 22 x
def bsig1 (x : Nat) : Nat := rotr 6 x ^^^ rotr 11 x ^^^ rotr 25 x
def ssig0 (x : Nat) : Nat := rotr 7 x ^^^ rotr 18 x ^^^ (x >>> 3)
def ssig1 (x : Nat) : Nat := rotr 17 x ^^^ rotr 19 x ^^^ (x >>> 10)

def chf (x y z : Nat) : Nat := (x &&& y) ^^^ ((x ^^^ 0xFFFFFFFF) &&& z)
def majf (x y z : Nat) : Nat := (x &&& y) ^^^ (x &&& z) ^^^ (y &&& z)

/-- The 64 SHA-256 round constants (decimal). -/
def sha256K : List Nat :=
  [1116352408, 1899447441, 3049323471, 3921009573, 961987163,
   1508970993, 2453635748, 2870763221, 3624381080, 310598401,
   607225278, 1426881987, 1925078388, 2162078206, 2614888103,
   3248222580, 3835390401, 4022224774, 264347078, 604807628,
   770255983, 1249150122, 1555081692, 1996064986, 2554220882,
   2821834349, 2952996808, 3210313671, 3336571891, 3584528711,
   113926993, 338241895, 666307205, 773529912, 1294757372,
   1396182291, 1695183700, 1986661051, 2177026350, 2456956037,
   2730485921, 2820302411, 3259730800, 3345764771, 3516065817,
   3600352804, 4094571909, 275423344, 430227734, 506948616,
   659060556, 883997877, 958139571, 1322822218, 1537002063,
   1747873779, 1955562222, 2024104815, 2227730452, 2361852424,
   2428436474, 2756734187, 3204031479, 3329325298]

/-- The 8 initial SHA-256 hash words (decimal). -/
def sha256H0 : List Nat :=
  [1779033703, 3144134277, 1013904242, 2773480762,
   1359893119, 2600822924, 528734635, 1541459225]

/-- `k` bytes of `n`, big-endian. -/
def beBytes : Nat → Nat → List Nat
  | 0, _ => []
  | k + 1, n => beBytes k (n >>> 8) ++ [n &&& 0xFF]

/-- SHA-256 padding: append `0x80`, zero bytes to 56 mod 64, then the
bit length as 8 big-endian bytes. -/
def padMsg (ms : List Nat) : List Nat :=
  let L := ms.length
  let k := (120 - (L + 1) % 64) % 64
  ms ++ [0x80] ++ List.replicate k 0 ++ beBytes 8 (8 * L)

/-- Group bytes into big-endian 32-bit words. -/
def bytesToWords : List Nat → List Nat
  | a :: b :: c :: d :: rest =>
    ((a <<< 24) ||| (b <<< 16) ||| (c <<< 8) ||| d) :: bytesToWords rest
  | _ => []

/-- Split a word list into `n` chunks of 16 words. -/
def chunksW : Nat → List Nat → List (List Nat)
  | 0, _ => []
  | n + 1, ws => ws.take 16 :: chunksW n (ws.drop 16)

/-- One message-schedule extension step, over the reversed schedule
(head = most recent word): W[t] = σ1(W[t-2]) + W[t-7] + σ0(W[t-15]) + W[t-16]. -/
def schedStep (wrev : List Nat) : List Nat :=
  w32 (ssig1 (wrev.getD 1 0) + wrev.getD 6 0 + ssig0 (wrev.getD 14 0) + wrev.getD 15 0) :: wrev

/-- Extend a 16-word block to the 64-word message schedule. -/
def schedule (block : List Nat) : List Nat :=
  (schedStep^[48] block.reverse).reverse

/-- One round of the SHA-256 compression function on state
`[a, b, c, d, e, f, g, h]` with `wk = (W[t], K[t])`. -/
def compressStep (st : List Nat) (wk : Nat × Nat) : List Nat :=
  match st with
  | [a, b, c, d, e, f, g, h] =>
    let t1 := w32 (h + bsig1 e + chf e f g + wk.2 + wk.1)
    let t2 := w32 (bsig0 a + majf a b c)
    [w32 (t1 + t2), a, b, c, w32 (d + t1), e, f, g]
  | _ => st

/-- Process one 512-bit block: run 64 compression rounds and add the
result into the running hash. -/
def processBlock (H : List Nat) (block : List Nat) : List Nat :=
  let st := ((schedule block).zip sha256K).foldl compressStep H
  (H.zip st).map (fun p => w32 (p.1 + p.2))

/-- SHA-256 digest (32 bytes) of a byte list. -/
def sha256Bytes (ms : List Nat) : List Nat :=
  let ws := bytesToWords (padMsg ms)
  let blocks := chunksW (ws.length / 16) ws
  (blocks.foldl processBlock sha256H0).foldr (fun w acc => beBytes 4 w ++ acc) []

/-- Lowercase hex digit. -/
def hexDigit (n : Nat) : Char :=
  if n < 10 then Char.ofNat (48 + n) else Char.ofNat (87 + n)

/-- Two lowercase hex digits of a byte. -/
def hexByte (b : Nat) : List Char := [hexDigit (b >>> 4), hexDigit (b &&& 0xF)]

/-- Lowercase hex string of a byte list (`encoding/hex.EncodeToString`). -/
def bytesToHex (bs : List Nat) : String := String.mk (bs.map hexByte).flatten

/-- Lowercase hex SHA-256 of a string's UTF-8 bytes. This is what
`sha256.Sum256([]byte(s))` followed by `hex.EncodeToString` computes. -/
def sha256hex (s : String) : String := bytesToHex (sha256Bytes (utf8Encode s))

/-- Sanity: the embedding reproduces the SHA-256 test vector for
`"hello"` given in the specification's basic-sync scenario. -/
theorem sha256hex_hello :
    sha256hex "hello" = "2cf24dba5fb0a30e26e83b2ac5b9e29e1b161e5c1fa7425e73043362938b9824" := by
  decide

/-- Sanity: SHA-256 of the empty string. -/
theorem sha256hex_empty :
    sha256hex "" = "e3b0c44298fc1c149afbf4c8996fb92427ae41e4649b934ca495991b7852b855" := by
  decide

/-! ## Event model (shared/models, src/unnamed/part_003)

`Timestamp` is a `time.Time` in Go; we model instants as `Nat`, with
`0` playing the role of the zero `time.Time` (`IsZero`). -/

/-- One clipboard synchronization event (`models.Event`). -/
structure Event where
  event_id : String
  source_device_id : String
  timestamp : Nat
  content_type : String
  text : String
  text_hash : String
  deriving Repr, DecidableEq

/-- `Event.ComputeTextHash`: SHA-256 hex of the event's text. -/
def Event.ComputeTextHash (e : Event) : String := sha256hex e.text

/-- `Event.SetTextHash`: store the computed hash on the event. -/
def Event.SetTextHash (e : Event) : Event :=
  { e with text_hash := e.ComputeTextHash }

/-! ## JSON serialization of events

Models `json.Marshal` on `models.Event`: fields in struct order under
their JSON tags, string values escaped as Go's encoder does (quote,
backslash, newline/carriage-return/tab, other control characters and
the HTML-escaped `<`, `>`, `&` as `\u00xx` sequences). The timestamp,
a `time.Time` marshalled as an RFC-3339 string in Go, appears here as
the decimal of the model instant. -/

/-- Go JSON escaping of one character. -/
def escapeJsonChar (c : Char) : List Char :=
  if c = '"' then ['\\', '"']
  else if c = '\\' then ['\\', '\\']
  else if c = Char.ofNat 10 then ['\\', 'n']
  else if c = Char.ofNat 13 then ['\\', 'r']
  else if c = Char.ofNat 9 then ['\\', 't']
  else if c.toNat < 32 ∨ c = '<' ∨ c = '>' ∨ c = '&' then
    '\\' :: 'u' :: '0' :: '0' :: hexByte c.toNat
  else [c]

/-- A JSON string literal with Go's escaping. -/
def jsonString (s : String) : String :=
  "\"" ++ String.mk (s.data.map escapeJsonChar).flatten ++ "\""

/-- The JSON serialization of an event (`json.Marshal(event)`). -/
def encodeEvent (e : Event) : String :=
  "\x7b\"event_id\":" ++ jsonString e.event_id ++
  ",\"source_device_id\":" ++ jsonString e.source_device_id ++
  ",\"timestamp\":\"" ++ toString e.timestamp ++
  "\",\"content_type\":" ++ jsonString e.content_type ++
  ",\"text\":" ++ jsonString e.text ++
  ",\"text_hash\":" ++ jsonString e.text_hash ++ "\x7d"

/-! ## Authentication (shared/auth, src/unnamed/part_004)

An HTTP request is modelled by the parts the handlers consult: the
method, the `X-Auth-Token` header value (`""` when absent, as
`Header.Get` returns), the `token` query parameter (`""` when absent),
and the decoded JSON body (`none` when the body does not parse as an
event). -/

/-- The slice of an HTTP request visible to the modelled handlers. -/
structure Request where
  method : String
  headerToken : String
  queryToken : String
  body : Option Event

/-- `auth.ValidateToken`: reject empty tokens, then constant-time
byte comparison (equal iff the strings are equal). -/
def ValidateToken (expected provided : String) : Bool :=
  if expected = "" ∨ provided = "" then false
  else expected = provided

/-- `auth.Authenticate`: try the `X-Auth-Token` header first, then the
`token` query parameter, else fail. -/
def Authenticate (r : Request) (expectedToken : String) : Bool :=
  if r.headerToken ≠ "" then ValidateToken expectedToken r.headerToken
  else if r.queryToken ≠ "" then ValidateToken expectedToken r.queryToken
  else false

/-! ## Dedup cache (agent sync, src/unnamed/part_000)

`recentEventCache` is a Go map from identifier to first-seen
`time.Time`, modelled as an association list with unique keys, plus
the `maxAge` duration. `time.Since(seen) > maxAge` becomes
`maxAge < now - seen` on the abstract clock. -/

/-- `recentEventCache`: identifier → time first seen, with max age. -/
structure Cache where
  events : List (String × Nat)
  maxAge : Nat
  deriving Repr, DecidableEq

/-- `newRecentEventCache maxAge`. -/
def newRecentEventCache (maxAge : Nat) : Cache := ⟨[], maxAge⟩

/-- Look up an identifier in the cache's map. -/
def lookupId (l : List (String × Nat)) (id : String) : Option Nat :=
  match l with
  | [] => none
  | p :: rest => if p.1 = id then some p.2 else lookupId rest id

/-- `recentEventCache.Add`: record the identifier as seen now
(map assignment overwrites any previous entry). -/
def Cache.Add (c : Cache) (id : String) (now : Nat) : Cache :=
  { c with events := (id, now) :: c.events.filter (fun p => p.1 ≠ id) }

/-- `recentEventCache.Contains`: true iff present and not older than
`maxAge`; a stale entry is deleted before returning false. Returns the
possibly-updated cache alongside the boolean. -/
def Cache.Contains (c : Cache) (id : String) (now : Nat) : Bool × Cache :=
  match lookupId c.events id with
  | none => (false, c)
  | some seen =>
    if c.maxAge < now - seen then
      (false, { c with events := c.events.filter (fun p => p.1 ≠ id) })
    else (true, c)

/-- `recentEventCache.Prune`: delete every entry older than `maxAge`. -/
def Cache.Prune (c : Cache) (now : Nat) : Cache :=
  { c with events := c.events.filter (fun p => ¬ c.maxAge < now - p.2) }

/-! ## Event log (hub storage, src/hub/storage.go)

The `events` table is modelled as the list of its rows in insertion
order; `event_id` is the primary key. `InsertEvent` issues
`INSERT OR IGNORE`, so a row whose `event_id` is already present
leaves the table untouched and reports success. Database-level I/O
failure is a separate possibility of `db.Exec`, modelled at the
handler level by an oracle (`insertOk`). -/

/-- `INSERT OR IGNORE INTO events`: append unless the primary key
`event_id` is already present. -/
def InsertEvent (tbl : List Event) (e : Event) : List Event :=
  if tbl.any (fun r => r.event_id = e.event_id) then tbl else tbl ++ [e]

/-- Insert an event into a list kept in descending-timestamp order
(ties broken by putting the new row first). -/
def insertByTs (e : Event) : List Event → List Event
  | [] => [e]
  | x :: xs => if x.timestamp ≤ e.timestamp then e :: x :: xs else x :: insertByTs e xs

/-- Sort rows by `timestamp` descending (`ORDER BY timestamp DESC`;
the tie order is arbitrary but stable per call). -/
def sortDescByTs : List Event → List Event
  | [] => []
  | x :: xs => insertByTs x (sortDescByTs xs)

/-- `Storage.GetRecentEvents`: newest-first rows, at most `limit`
(`ORDER BY timestamp DESC LIMIT ?`). -/
def GetRecentEvents (tbl : List Event) (limit : Nat) : List Event :=
  (sortDescByTs tbl).take limit

/-! ## Fan-out broadcaster (src/hub/broadcast.go)

The connection map `device_id → *websocket.Conn` is modelled by the
list of registered device ids (with no duplicate keys, the Go map
invariant). A `WriteMessage` outcome is given by an oracle
`w : String → Bool` (true = the write to that device's channel
succeeded). `Broadcast` serializes the event once, then walks the
map, skipping the source device; on a write error it logs and
continues — the channel is not removed. It returns the (unchanged)
connection map together with the list of write attempts. -/

/-- One `WriteMessage` attempt made during a broadcast. -/
structure Send where
  dest : String
  payload : String
  ok : Bool
  deriving Repr, DecidableEq

/-- The `for deviceID, conn := range b.connections` loop body of
`Broadcaster.Broadcast`: skip the source, otherwise attempt one write
of the pre-serialized payload; the map is never mutated. -/
def broadcastLoop (data : String) (src : String) (w : String → Bool) :
    List String → List String × List Send
  | [] => ([], [])
  | d :: rest =>
    let (cs, ss) := broadcastLoop data src w rest
    if d = src then (d :: cs, ss)
    else (d :: cs, ⟨d, data, w d⟩ :: ss)

/-- `Broadcaster.Broadcast event sourceDeviceID`: marshal the event
once, then fan out to every connection except the source's. -/
def Broadcast (conns : List String) (e : Event) (src : String)
    (w : String → Bool) : List String × List Send :=
  let data := encodeEvent e
  broadcastLoop data src w conns

/-! ## Hub push handler (src/hub/broadcast.go, handlePush)

`handlePush` authenticates, decodes the body, normalizes the
timestamp and hash, inserts, and only then broadcasts. The handler is
modelled as a function of the hub state (events table + broadcaster
connections), the request, the configured secret, the current time,
the `db.Exec` outcome oracle `insertOk`, and the per-channel write
oracle `w`. Besides the response status and the new state it returns
the write attempts made and a trace of the storage/broadcast calls,
in the order the code performs them. -/

/-- Hub state: the events table and the broadcaster's connection map. -/
structure HubState where
  table : List Event
  conns : List String
  deriving Repr, DecidableEq

/-- Observable storage/broadcast calls made by `handlePush`. -/
inductive HubCall where
  | insert (e : Event) (ok : Bool)
  | broadcast (e : Event) (src : String)
  deriving Repr, DecidableEq

/-- The outcome of one `handlePush` request. -/
structure PushResult where
  status : Nat
  state : HubState
  sends : List Send
  trace : List HubCall
  deriving Repr, DecidableEq

/-- `handlePush`: method check (405), auth (401), JSON decode (400),
normalize zero timestamp and empty hash, `InsertEvent` (500 on
storage error), then `Broadcast` and 201. -/
def handlePush (st : HubState) (r : Request) (secret : String) (now : Nat)
    (insertOk : Bool) (w : String → Bool) : PushResult :=
  if r.method ≠ "POST" then ⟨405, st, [], []⟩
  else if ¬ Authenticate r secret then ⟨401, st, [], []⟩
  else
    match r.body with
    | none => ⟨400, st, [], []⟩
    | some ev0 =>
      let ev1 := if ev0.timestamp = 0 then { ev0 with timestamp := now } else ev0
      let ev := if ev1.text_hash = "" then ev1.SetTextHash else ev1
      if insertOk then
        let table' := InsertEvent st.table ev
        let (conns', sends) := Broadcast st.conns ev ev.source_device_id w
        ⟨201, ⟨table', conns'⟩, sends,
          [.insert ev true, .broadcast ev ev.source_device_id]⟩
      else
        ⟨500, st, [], [.insert ev false]⟩

/-- `handleHealth`: GET only; no authentication; responds 200. -/
def handleHealth (r : Request) : Nat :=
  if r.method ≠ "GET" then 405 else 200

/-! ## Agent clipboard poll (src/unnamed/part_001, handleClipboardPoll)

The clipboard is an external capability; a poll tick samples it twice
(`GetClipboardHash` reads it, `ReadClipboard` reads it again for the
payload), so the tick is a function of the two sampled contents. A
clipboard read error surfaces as `""` from `ReadClipboard`. The tick
mutates the poll state (`lastHash` plus the shared dedup cache) and
its externally visible steps are recorded in order as a trace. -/

/-- `GetClipboardHash`: SHA-256 hex of the clipboard text, or `""`
for an empty (or unreadable) clipboard. -/
def GetClipboardHash (clip : String) : String :=
  if clip = "" then "" else sha256hex clip

/-- Agent-side poll state: `lastHash` and the syncer's dedup cache. -/
structure PollState where
  lastHash : String
  cache : Cache
  deriving Repr, DecidableEq

/-- Externally visible steps of one poll tick, in program order. -/
inductive AgentStep where
  | updateLast (h : String)
  | cacheAdd (id : String)
  | pushCall (e : Event)
  deriving Repr, DecidableEq

/-- `handleClipboardPoll`: skip on empty/unchanged hash; update
`lastHash` immediately; skip if the hash is cached (remote-applied
content); skip on empty payload; otherwise build the event, set its
hash, cache both `event_id` and `text_hash`, and call `PushToHub`.
`clip1` is the content sampled by `GetClipboardHash`, `clip2` the
content sampled by `ReadClipboard`, `eid` the freshly generated UUID. -/
def handleClipboardPoll (st : PollState) (clip1 clip2 : String)
    (deviceID eid : String) (now : Nat) : PollState × List AgentStep :=
  let currentHash := GetClipboardHash clip1
  if currentHash = "" ∨ currentHash = st.lastHash then (st, [])
  else
    let st1 : PollState := { st with lastHash := currentHash }
    let (found, cache1) := st1.cache.Contains currentHash now
    let st2 : PollState := { st1 with cache := cache1 }
    if found then (st2, [.updateLast currentHash])
    else if clip2 = "" then (st2, [.updateLast currentHash])
    else
      let ev : Event :=
        Event.SetTextHash ⟨eid, deviceID, now, "text", clip2, ""⟩
      let cache2 := (st2.cache.Add ev.event_id now).Add ev.text_hash now
      ({ st2 with cache := cache2 },
       [.updateLast currentHash, .cacheAdd ev.event_id,
        .cacheAdd ev.text_hash, .pushCall ev])

/-! ## Agent receive loop (src/unnamed/part_000, Syncer.ReceiveFromHub)

One iteration of the WebSocket consumer loop, as a function of the
inbound frame (`none` when `json.Unmarshal` fails), the agent's own
device id, the cache, a clipboard-write outcome oracle and the
notification flag. The notification preview is computed on the raw
UTF-8 bytes, because Go's `len(preview) > 80` counts bytes and
`preview[:80]` slices bytes. -/

/-- The notification preview of `ReceiveFromHub`, on UTF-8 bytes:
`preview := event.Text; if len(preview) > 80 then preview =
preview[:80] + "..."`. -/
def previewBytes (text : String) : List Nat :=
  let bs := utf8Encode text
  if 80 < bs.length then bs.take 80 ++ utf8Encode "..." else bs

/-- Externally visible steps of one receive-loop iteration. -/
inductive RecvStep where
  | cacheAdd (id : String)
  | clipWrite (text : String) (ok : Bool)
  | notify (source : String) (preview : List Nat)
  deriving Repr, DecidableEq

/-- One iteration of `ReceiveFromHub`: drop unparseable frames, drop
own events, drop cached events; otherwise cache the id, attempt the
clipboard write (skipping the rest on failure), then notify when
enabled. Returns the updated cache and the step trace. -/
def receiveStep (deviceID : String) (cache : Cache) (msg : Option Event)
    (writeOk : Bool) (notifyEnabled : Bool) (now : Nat) :
    Cache × List RecvStep :=
  match msg with
  | none => (cache, [])
  | some event =>
    if event.source_device_id = deviceID then (cache, [])
    else
      let (found, cache1) := cache.Contains event.event_id now
      if found then (cache1, [])
      else
        let cache2 := cache1.Add event.event_id now
        if ¬ writeOk then
          (cache2, [.cacheAdd event.event_id, .clipWrite event.text false])
        else if notifyEnabled then
          (cache2, [.cacheAdd event.event_id, .clipWrite event.text true,
                    .notify event.source_device_id (previewBytes event.text)])
        else
          (cache2, [.cacheAdd event.event_id, .clipWrite event.text true])

/-! ## Helper lemmas -/

/-- Looking up a key in a map from which it was just filtered out
finds nothing. -/
theorem lookupId_filter_ne (l : List (String × Nat)) (x : String) :
    lookupId (l.filter (fun p => p.1 ≠ x)) x = none := by
  induction l with
  | nil => rfl
  | cons p rest ih =>
    by_cases h : p.1 = x
    · simpa [List.filter_cons, h] using ih
    · simpa [List.filter_cons, h, lookupId] using ih

/-- `Add` makes the identifier map to the add time. -/
theorem lookupId_Add (c : Cache) (x : String) (t : Nat) :
    lookupId (c.Add x t).events x = some t := by
  simp [Cache.Add, lookupId]

/-- `Add` keeps the maximum age. -/
theorem maxAge_Add (c : Cache) (x : String) (t : Nat) :
    (c.Add x t).maxAge = c.maxAge := rfl

/-- `Contains` keeps the maximum age. -/
theorem maxAge_Contains (c : Cache) (x : String) (t : Nat) :
    ((c.Contains x t).2).maxAge = c.maxAge := by
  unfold Cache.Contains
  cases lookupId c.events x with
  | none => rfl
  | some seen => dsimp only; split <;> rfl

/-! ## Claim C3: dedup cache expiry semantics -/

/-- Claim C3, counterexample. The claim asserts `Contains(x)` returns
false at every query time `≥ t+T`; with `T = 5` and an add at `t = 0`,
a query at the boundary time `t + T = 5` returns true: the code keeps
an entry whose age equals `maxAge` (`time.Since(seen) > maxAge` is
strict). -/
theorem c3_counterexample :
    (((newRecentEventCache 5).Add "x" 0).Contains "x" (0 + 5)).1 = true := by
  decide

/-- Claim C3, amended: after `Add x` at time `t`, `Contains x` at any
query time `q ≥ t` returns true (leaving the cache unchanged) iff
`q ≤ t + T`, and for `q > t + T` it returns false after deleting the
stale entry. -/
theorem c3_cache_expiry (c : Cache) (x : String) (t q : Nat) (ht : t ≤ q) :
    (q ≤ t + c.maxAge → (c.Add x t).Contains x q = (true, c.Add x t)) ∧
    (t + c.maxAge < q →
      ((c.Add x t).Contains x q).1 = false ∧
      lookupId ((c.Add x t).Contains x q).2.events x = none) := by
  have hlk : lookupId (c.Add x t).events x = some t := lookupId_Add c x t
  constructor
  · intro hq
    have hcond : ¬ (c.Add x t).maxAge < q - t := by
      rw [maxAge_Add]; omega
    unfold Cache.Contains
    rw [hlk]; simp [hcond]
  · intro hq
    have hcond : (c.Add x t).maxAge < q - t := by
      rw [maxAge_Add]; omega
    unfold Cache.Contains
    rw [hlk]
    dsimp only
    rw [if_pos hcond]
    exact ⟨rfl, lookupId_filter_ne _ x⟩

/-- Claim C3, witness: a fresh entry (added at 0, queried at 3 with
`T = 5`) is reported present. -/
theorem c3_cache_expiry_witness :
    ((newRecentEventCache 5).Add "x" 0).Contains "x" 3 =
      (true, (newRecentEventCache 5).Add "x" 0) :=
  (c3_cache_expiry (newRecentEventCache 5) "x" 0 3 (by decide)).1 (by decide)

/-! ## Claim C8: the authentication front door -/

/-- Claim C8: `Authenticate` tries the `X-Auth-Token` header first and
then the `token` query parameter; it returns false when the secret is
empty or no token is provided, and returns true only when the provided
token equals the secret. -/
theorem c8_authenticate (r : Request) (secret : String) :
    (secret = "" → Authenticate r secret = false) ∧
    (r.headerToken = "" ∧ r.queryToken = "" → Authenticate r secret = false) ∧
    (r.headerToken ≠ "" → Authenticate r secret = ValidateToken secret r.headerToken) ∧
    (r.headerToken = "" → Authenticate r secret = ValidateToken secret r.queryToken) ∧
    (Authenticate r secret = true →
      (r.headerToken ≠ "" ∧ r.headerToken = secret) ∨
      (r.headerToken = "" ∧ r.queryToken = secret)) := by
  unfold Authenticate ValidateToken
  by_cases hh : r.headerToken = "" <;> by_cases hq : r.queryToken = "" <;>
    by_cases hs : secret = "" <;> simp [hh, hq, hs] <;>
    intro h <;> simp_all

/-- Claim C8, witness: a matching header token authenticates. -/
theorem c8_authenticate_witness :
    Authenticate ⟨"POST", "tok", "", none⟩ "tok" = ValidateToken "tok" "tok" :=
  (c8_authenticate ⟨"POST", "tok", "", none⟩ "tok").2.2.1 (by decide)

/-! ## Claim C9: the notification preview -/

/-- Claim C9, counterexample. The claim asserts the preview equals the
text whenever the text is at most 80 characters long, for every UTF-8
payload. A text of 41 two-byte characters (41 ≤ 80 characters but 82
UTF-8 bytes) is truncated by the code, because Go's `len` counts
bytes: the produced preview differs from the text's bytes. -/
theorem c9_counterexample :
    (String.mk (List.replicate 41 'é')).length ≤ 80 ∧
    previewBytes (String.mk (List.replicate 41 'é')) ≠
      utf8Encode (String.mk (List.replicate 41 'é')) := by
  constructor
  · decide
  · decide

/-- Claim C9, amended: when the receive loop applies a foreign,
uncached event with notifications enabled, the notification preview
equals the event's text when its UTF-8 encoding is at most 80 bytes
long, and otherwise equals the first 80 bytes of the text followed by
an ellipsis (`"..."`). -/
theorem c9_preview (deviceID : String) (cache : Cache) (e : Event) (now : Nat)
    (hsrc : e.source_device_id ≠ deviceID)
    (hc : (cache.Contains e.event_id now).1 = false) :
    (receiveStep deviceID cache (some e) true true now).2 =
      [.cacheAdd e.event_id, .clipWrite e.text true,
       .notify e.source_device_id (previewBytes e.text)] ∧
    ((utf8Encode e.text).length ≤ 80 → previewBytes e.text = utf8Encode e.text) ∧
    (80 < (utf8Encode e.text).length →
      previewBytes e.text = (utf8Encode e.text).take 80 ++ utf8Encode "...") := by
  rcases hcc : cache.Contains e.event_id now with ⟨b, c1⟩
  rw [hcc] at hc
  simp only at hc
  subst hc
  refine ⟨?_, ?_, ?_⟩
  · simp [receiveStep, hsrc, hcc]
  · intro hlen
    have hnl : ¬ 80 < (utf8Encode e.text).length := by omega
    simp [previewBytes, hnl]
  · intro hlen
    simp [previewBytes, hlen]

/-- Claim C9, witness: a short ASCII text is previewed verbatim. -/
theorem c9_preview_witness :
    (receiveStep "b" (newRecentEventCache 300)
        (some ⟨"e1", "a", 1, "text", "hello", ""⟩) true true 0).2 =
      [.cacheAdd "e1", .clipWrite "hello" true, .notify "a" (previewBytes "hello")] ∧
    ((utf8Encode "hello").length ≤ 80 → previewBytes "hello" = utf8Encode "hello") ∧
    (80 < (utf8Encode "hello").length →
      previewBytes "hello" = (utf8Encode "hello").take 80 ++ utf8Encode "...") :=
  c9_preview "b" (newRecentEventCache 300) ⟨"e1", "a", 1, "text", "hello", ""⟩ 0
    (by decide) (by decide)

/-! ## Claim C10: cache-before-write in the receive loop -/

/-- A freshly added identifier is reported present while within age,
and `Contains` leaves the cache unchanged. -/
theorem contains_Add_recent (c : Cache) (x : String) (t q : Nat)
    (h : q - t ≤ c.maxAge) :
    (c.Add x t).Contains x q = (true, c.Add x t) := by
  unfold Cache.Contains
  rw [lookupId_Add]
  dsimp only
  rw [if_neg (by rw [maxAge_Add]; omega)]

/-- Claim C10: for a foreign, uncached inbound event, the receive loop
caches the `event_id` before attempting the clipboard write; after a
failed write the id stays cached, so a redelivery of the same event
within the cache age produces no steps at all (in particular no
clipboard write). -/
theorem c10_cache_before_write (deviceID : String) (cache : Cache) (e : Event)
    (writeOk notifyEnabled writeOk' notifyEnabled' : Bool) (now now' : Nat)
    (hsrc : e.source_device_id ≠ deviceID)
    (hc : (cache.Contains e.event_id now).1 = false)
    (hage : now' - now ≤ cache.maxAge) :
    (∃ rest, (receiveStep deviceID cache (some e) writeOk notifyEnabled now).2 =
       .cacheAdd e.event_id :: .clipWrite e.text writeOk :: rest) ∧
    (((receiveStep deviceID cache (some e) false notifyEnabled now).1).Contains
        e.event_id now').1 = true ∧
    (receiveStep deviceID ((receiveStep deviceID cache (some e) false notifyEnabled now).1)
        (some e) writeOk' notifyEnabled' now').2 = [] := by
  rcases hcc : cache.Contains e.event_id now with ⟨b, c1⟩
  rw [hcc] at hc
  simp only at hc
  subst hc
  have hmax : c1.maxAge = cache.maxAge := by
    have := maxAge_Contains cache e.event_id now
    rw [hcc] at this
    exact this
  have hcache' : (receiveStep deviceID cache (some e) false notifyEnabled now).1 =
      c1.Add e.event_id now := by
    simp [receiveStep, hsrc, hcc]
  have hcontains : (c1.Add e.event_id now).Contains e.event_id now' =
      (true, c1.Add e.event_id now) :=
    contains_Add_recent c1 e.event_id now now' (by omega)
  refine ⟨?_, ?_, ?_⟩
  · cases writeOk <;> cases notifyEnabled
    · exact ⟨[], by simp [receiveStep, hsrc, hcc]⟩
    · exact ⟨[], by simp [receiveStep, hsrc, hcc]⟩
    · exact ⟨[], by simp [receiveStep, hsrc, hcc]⟩
    · exact ⟨[.notify e.source_device_id (previewBytes e.text)],
        by simp [receiveStep, hsrc, hcc]⟩
  · rw [hcache', hcontains]
  · rw [hcache']
    simp [receiveStep, hsrc, hcontains]

/-- Claim C10, witness: after a failed clipboard write, a redelivery
of the same event 10 time units later (within age 300) is dropped. -/
theorem c10_cache_before_write_witness :
    (∃ rest, (receiveStep "b" (newRecentEventCache 300)
        (some ⟨"e1", "a", 1, "text", "hi", "h"⟩) false false 0).2 =
       .cacheAdd "e1" :: .clipWrite "hi" false :: rest) ∧
    (((receiveStep "b" (newRecentEventCache 300)
        (some ⟨"e1", "a", 1, "text", "hi", "h"⟩) false false 0).1).Contains
        "e1" 10).1 = true ∧
    (receiveStep "b" ((receiveStep "b" (newRecentEventCache 300)
        (some ⟨"e1", "a", 1, "text", "hi", "h"⟩) false false 0).1)
        (some ⟨"e1", "a", 1, "text", "hi", "h"⟩) true true 10).2 = [] :=
  c10_cache_before_write "b" (newRecentEventCache 300)
    ⟨"e1", "a", 1, "text", "hi", "h"⟩ false false true true 0 10
    (by decide) (by decide) (by decide)

/-! ## Claim C5: broadcast fan-out -/

/-- The broadcast loop never changes the connection map. -/
theorem broadcastLoop_conns (data src : String) (w : String → Bool)
    (l : List String) : (broadcastLoop data src w l).1 = l := by
  induction l with
  | nil => rfl
  | cons d rest ih => by_cases hd : d = src <;> simp [broadcastLoop, hd, ih]

/-- Every write attempted by the broadcast loop carries the
pre-serialized payload. -/
theorem broadcastLoop_payload (data src : String) (w : String → Bool)
    (l : List String) :
    ∀ s ∈ (broadcastLoop data src w l).2, s.payload = data := by
  induction l with
  | nil => intro s hs; simp [broadcastLoop] at hs
  | cons d rest ih =>
    intro s hs
    by_cases hd : d = src
    · rw [show broadcastLoop data src w (d :: rest) =
        ((d :: (broadcastLoop data src w rest).1), (broadcastLoop data src w rest).2) by
          simp [broadcastLoop, hd]] at hs
      exact ih s hs
    · rw [show broadcastLoop data src w (d :: rest) =
        ((d :: (broadcastLoop data src w rest).1),
         ⟨d, data, w d⟩ :: (broadcastLoop data src w rest).2) by
          simp [broadcastLoop, hd]] at hs
      rcases List.mem_cons.1 hs with h | h
      · rw [h]
      · exact ih s h

/-- No write is attempted towards a device id absent from the map. -/
theorem broadcastLoop_not_mem (data src : String) (w : String → Bool)
    (l : List String) (d : String) (h : d ∉ l) :
    ((broadcastLoop data src w l).2.filter (fun s => s.dest = d)) = [] := by
  induction l with
  | nil => rfl
  | cons d0 rest ih =>
    have hd0 : d0 ≠ d := fun he => h (he ▸ List.mem_cons_self d0 rest)
    have hrest : d ∉ rest := fun he => h (List.mem_cons_of_mem d0 he)
    by_cases hsd : d0 = src <;>
      simp [broadcastLoop, hsd, List.filter_cons, hd0, ih hrest]

/-- The source device's channel gets no write attempt. -/
theorem broadcastLoop_skip_src (data src : String) (w : String → Bool)
    (l : List String) :
    ((broadcastLoop data src w l).2.filter (fun s => s.dest = src)) = [] := by
  induction l with
  | nil => rfl
  | cons d0 rest ih =>
    by_cases hsd : d0 = src <;> simp [broadcastLoop, hsd, List.filter_cons, ih]

/-- With no duplicate keys, each non-source device gets exactly the
one write attempt, carrying the shared payload and its own write
outcome. -/
theorem broadcastLoop_mem (data src : String) (w : String → Bool)
    (l : List String) (hnd : l.Nodup) (d : String) (hd : d ∈ l) (hds : d ≠ src) :
    ((broadcastLoop data src w l).2.filter (fun s => s.dest = d)) =
      [⟨d, data, w d⟩] := by
  induction l with
  | nil => cases hd
  | cons d0 rest ih =>
    rcases List.nodup_cons.1 hnd with ⟨hnm, hnd'⟩
    rcases List.mem_cons.1 hd with he | he
    · subst he
      simp [broadcastLoop, hds, List.filter_cons,
        broadcastLoop_not_mem data src w rest d hnm]
    · have hne : d0 ≠ d := fun h => hnm (h ▸ he)
      by_cases hsd : d0 = src <;>
        simp [broadcastLoop, hsd, List.filter_cons, hne, ih hnd' he]

/-- Claim C5: `Broadcast(e, src)` leaves the connection map unchanged,
attempts no write to the source device's channel, and attempts exactly
one write to every other registered channel, all carrying the one
serialization of the event computed for the call; each channel's write
outcome is its own (failures affect neither the map nor other
channels' deliveries). -/
theorem c5_broadcast (conns : List String) (e : Event) (src : String)
    (w : String → Bool) (hnd : conns.Nodup) :
    (Broadcast conns e src w).1 = conns ∧
    (∀ s ∈ (Broadcast conns e src w).2, s.payload = encodeEvent e) ∧
    ((Broadcast conns e src w).2.filter (fun s => s.dest = src) = []) ∧
    (∀ d ∈ conns, d ≠ src →
      (Broadcast conns e src w).2.filter (fun s => s.dest = d) =
        [⟨d, encodeEvent e, w d⟩]) := by
  refine ⟨broadcastLoop_conns _ _ _ _, broadcastLoop_payload _ _ _ _,
    broadcastLoop_skip_src _ _ _ _, ?_⟩
  intro d hd hds
  exact broadcastLoop_mem (encodeEvent e) src w conns hnd d hd hds

/-- Claim C5, witness: three registered devices, source `"b"`; `"a"`
and `"c"` each get one write, `"b"` none, and the map is unchanged. -/
theorem c5_broadcast_witness :
    (Broadcast ["a", "b", "c"] ⟨"e1", "b", 1, "text", "hi", "h"⟩ "b"
        (fun d => d == "a")).1 = ["a", "b", "c"] ∧
    (∀ s ∈ (Broadcast ["a", "b", "c"] ⟨"e1", "b", 1, "text", "hi", "h"⟩ "b"
        (fun d => d == "a")).2,
      s.payload = encodeEvent ⟨"e1", "b", 1, "text", "hi", "h"⟩) ∧
    ((Broadcast ["a", "b", "c"] ⟨"e1", "b", 1, "text", "hi", "h"⟩ "b"
        (fun d => d == "a")).2.filter (fun s => s.dest = "b") = []) ∧
    (∀ d ∈ ["a", "b", "c"], d ≠ "b" →
      (Broadcast ["a", "b", "c"] ⟨"e1", "b", 1, "text", "hi", "h"⟩ "b"
          (fun d => d == "a")).2.filter (fun s => s.dest = d) =
        [⟨d, encodeEvent ⟨"e1", "b", 1, "text", "hi", "h"⟩, d == "a"⟩]) :=
  c5_broadcast ["a", "b", "c"] ⟨"e1", "b", 1, "text", "hi", "h"⟩ "b"
    (fun d => d == "a") (by decide)

/-! ## Claim C2: insert-before-broadcast ordering -/

/-- A trace is well ordered when every broadcast call is preceded by
a successful insert (`seenOk` records whether one has happened). -/
def callsOrdered (seenOk : Bool) : List HubCall → Bool
  | [] => true
  | .insert _ ok :: rest => callsOrdered (seenOk || ok) rest
  | .broadcast _ _ :: rest => seenOk && callsOrdered seenOk rest

/-- Claim C2: in every `handlePush` run the broadcast call (if any)
comes after a successful insert; when the insert fails on a request
that reached storage, the response is 500, no channel receives a
write, and the events table is untouched. -/
theorem c2_broadcast_after_insert (st : HubState) (r : Request) (secret : String)
    (now : Nat) (insertOk : Bool) (w : String → Bool) :
    callsOrdered false (handlePush st r secret now insertOk w).trace = true ∧
    (insertOk = false → (handlePush st r secret now insertOk w).sends = [] ∧
      (handlePush st r secret now insertOk w).state = st) ∧
    (∀ ev, r.method = "POST" → Authenticate r secret = true → r.body = some ev →
      insertOk = false → (handlePush st r secret now insertOk w).status = 500) := by
  unfold handlePush
  by_cases hm : r.method = "POST"
  · by_cases ha : Authenticate r secret
    · cases hb : r.body with
      | none => cases insertOk <;> simp [hm, ha, hb, callsOrdered]
      | some ev => cases insertOk <;> simp [hm, ha, hb, callsOrdered]
    · cases insertOk <;> simp [hm, ha, callsOrdered]
  · cases insertOk <;> simp [hm, callsOrdered]

/-- Claim C2, witness: a storage failure on an authenticated,
well-formed push yields a 500, no sends, and an unchanged state. -/
theorem c2_broadcast_after_insert_witness :
    callsOrdered false (handlePush ⟨[], ["b"]⟩
      ⟨"POST", "s", "", some ⟨"e1", "a", 1, "text", "hi", "h"⟩⟩
      "s" 7 false (fun _ => true)).trace = true ∧
    (handlePush ⟨[], ["b"]⟩
      ⟨"POST", "s", "", some ⟨"e1", "a", 1, "text", "hi", "h"⟩⟩
      "s" 7 false (fun _ => true)).sends = [] ∧
    (handlePush ⟨[], ["b"]⟩
      ⟨"POST", "s", "", some ⟨"e1", "a", 1, "text", "hi", "h"⟩⟩
      "s" 7 false (fun _ => true)).status = 500 := by
  have h := c2_broadcast_after_insert ⟨[], ["b"]⟩
    ⟨"POST", "s", "", some ⟨"e1", "a", 1, "text", "hi", "h"⟩⟩
    "s" 7 false (fun _ => true)
  exact ⟨h.1, (h.2.1 rfl).1,
    h.2.2 ⟨"e1", "a", 1, "text", "hi", "h"⟩ rfl (by decide) rfl rfl⟩

/-! ## Claim C7: unauthorized push, open health endpoint -/

/-- Claim C7: a POST to the push endpoint whose header token and query
token both fail validation is answered 401 with storage untouched and
no broadcast; a GET to the health endpoint needs no credentials and is
answered 200. -/
theorem c7_auth_rejection (st : HubState) (r : Request) (secret : String)
    (now : Nat) (insertOk : Bool) (w : String → Bool)
    (hm : r.method = "POST")
    (hh : ValidateToken secret r.headerToken = false)
    (hq : ValidateToken secret r.queryToken = false) :
    handlePush st r secret now insertOk w = ⟨401, st, [], []⟩ ∧
    (∀ r2 : Request, r2.method = "GET" → handleHealth r2 = 200) := by
  have hauth : Authenticate r secret = false := by
    unfold Authenticate
    by_cases h1 : r.headerToken = "" <;> simp [h1, hh, hq]
  constructor
  · unfold handlePush
    simp [hm, hauth]
  · intro r2 h2
    unfold handleHealth
    simp [h2]

/-- Claim C7, witness: a push with no token at all gets 401 and the
hub state survives; an anonymous health GET gets 200. -/
theorem c7_auth_rejection_witness :
    handlePush ⟨[⟨"e0", "a", 1, "text", "x", "h"⟩], ["b"]⟩
        ⟨"POST", "", "", some ⟨"e1", "a", 2, "text", "y", "h2"⟩⟩
        "secret" 9 true (fun _ => true) =
      ⟨401, ⟨[⟨"e0", "a", 1, "text", "x", "h"⟩], ["b"]⟩, [], []⟩ ∧
    (∀ r2 : Request, r2.method = "GET" → handleHealth r2 = 200) :=
  c7_auth_rejection ⟨[⟨"e0", "a", 1, "text", "x", "h"⟩], ["b"]⟩
    ⟨"POST", "", "", some ⟨"e1", "a", 2, "text", "y", "h2"⟩⟩
    "secret" 9 true (fun _ => true) rfl (by decide) (by decide)

/-! ## Claim C1: stored text hash vs SHA-256 of the text -/

/-- Claim C1, counterexample. The claim asserts every accepted push —
including one arriving with a non-empty `text_hash` — is stored with
`text_hash = SHA-256-hex(text)`. The handler only computes the hash
when the field is empty: a push of text `"a"` carrying the bogus hash
`"zzz"` is accepted (201) and stored verbatim, and `"zzz"` is not the
SHA-256 of `"a"`. -/
theorem c1_counterexample :
    (handlePush ⟨[], []⟩
        ⟨"POST", "s", "", some ⟨"evt-1", "devA", 1, "text", "a", "zzz"⟩⟩
        "s" 7 true (fun _ => true)).status = 201 ∧
    (handlePush ⟨[], []⟩
        ⟨"POST", "s", "", some ⟨"evt-1", "devA", 1, "text", "a", "zzz"⟩⟩
        "s" 7 true (fun _ => true)).state.table =
      [⟨"evt-1", "devA", 1, "text", "a", "zzz"⟩] ∧
    "zzz" ≠ sha256hex "a" := by
  refine ⟨by decide, by decide, by decide⟩

/-- Claim C1, amended: an accepted push stores the event with
`text_hash = SHA-256-hex(text)` when the incoming `text_hash` field is
empty; a non-empty incoming `text_hash` is stored exactly as provided
(the zero timestamp is likewise defaulted to the server clock). -/
theorem c1_stored_hash (st : HubState) (r : Request) (secret : String)
    (now : Nat) (insertOk : Bool) (w : String → Bool) (ev : Event)
    (hbody : r.body = some ev)
    (h201 : (handlePush st r secret now insertOk w).status = 201) :
    (handlePush st r secret now insertOk w).state.table =
      InsertEvent st.table
        { ev with
          timestamp := if ev.timestamp = 0 then now else ev.timestamp,
          text_hash := if ev.text_hash = "" then sha256hex ev.text
                       else ev.text_hash } := by
  unfold handlePush at h201 ⊢
  by_cases hm : r.method = "POST"
  · by_cases ha : Authenticate r secret
    · rw [hbody] at h201 ⊢
      by_cases hio : insertOk
      · simp only [hm, ha, hio, if_neg, if_pos, ite_true, ite_false,
          not_true, not_false_iff] at h201 ⊢
        simp only [ne_eq, not_true_eq_false, if_false, if_true] at h201 ⊢
        by_cases h1 : ev.timestamp = 0 <;> by_cases h2 : ev.text_hash = "" <;>
          simp [h1, h2, Event.SetTextHash, Event.ComputeTextHash]
      · simp [hm, ha, hio] at h201
    · simp [hm, ha] at h201
  · simp [hm] at h201

/-- Claim C1, witness: a push with an empty hash field is stored with
the SHA-256 of its text. -/
theorem c1_stored_hash_witness :
    (handlePush ⟨[], []⟩
        ⟨"POST", "s", "", some ⟨"evt-2", "devA", 1, "text", "hello", ""⟩⟩
        "s" 7 true (fun _ => true)).state.table =
      InsertEvent []
        { (⟨"evt-2", "devA", 1, "text", "hello", ""⟩ : Event) with
          timestamp := if (1 : Nat) = 0 then 7 else 1,
          text_hash := if "" = "" then sha256hex "hello" else "" } :=
  c1_stored_hash ⟨[], []⟩
    ⟨"POST", "s", "", some ⟨"evt-2", "devA", 1, "text", "hello", ""⟩⟩
    "s" 7 true (fun _ => true) ⟨"evt-2", "devA", 1, "text", "hello", ""⟩
    rfl (by decide)

/-! ## Claim C4: duplicate-insert idempotence -/

/-- Claim C4: inserting an event whose `event_id` is already a row of
the table succeeds and leaves the table unchanged (`INSERT OR
IGNORE`); consequently a duplicate authenticated push is answered 201,
the table keeps its pre-state, and `/history` is unchanged. -/
theorem c4_duplicate_insert (st : HubState) (r : Request) (secret : String)
    (now : Nat) (w : String → Bool) (ev : Event)
    (hm : r.method = "POST") (ha : Authenticate r secret = true)
    (hbody : r.body = some ev)
    (hdup : st.table.any (fun row => row.event_id = ev.event_id) = true) :
    (∀ (tbl : List Event) (e2 : Event),
      tbl.any (fun row => row.event_id = e2.event_id) = true →
        InsertEvent tbl e2 = tbl) ∧
    (handlePush st r secret now true w).status = 201 ∧
    (handlePush st r secret now true w).state.table = st.table ∧
    GetRecentEvents (handlePush st r secret now true w).state.table 50 =
      GetRecentEvents st.table 50 := by
  have hins : ∀ (tbl : List Event) (e2 : Event),
      tbl.any (fun row => row.event_id = e2.event_id) = true →
        InsertEvent tbl e2 = tbl := by
    intro tbl e2 h
    simp [InsertEvent, h]
  have htbl : (handlePush st r secret now true w).state.table = st.table := by
    unfold handlePush
    rw [hbody]
    simp only [hm, ha]
    simp only [ite_true, ite_false, not_true_eq_false, if_false, ne_eq]
    by_cases h1 : ev.timestamp = 0 <;> by_cases h2 : ev.text_hash = "" <;>
      simp [h1, h2, Event.SetTextHash, Event.ComputeTextHash, hins _ _, hdup]
  refine ⟨hins, ?_, htbl, by rw [htbl]⟩
  unfold handlePush
  rw [hbody]
  simp [hm, ha]

/-- Claim C4, witness: re-pushing an already-stored event id gives 201
and the single-row table survives unchanged. -/
theorem c4_duplicate_insert_witness :
    (∀ (tbl : List Event) (e2 : Event),
      tbl.any (fun row => row.event_id = e2.event_id) = true →
        InsertEvent tbl e2 = tbl) ∧
    (handlePush ⟨[⟨"e1", "a", 1, "text", "hi", "h"⟩], []⟩
        ⟨"POST", "s", "", some ⟨"e1", "a", 1, "text", "hi", "h"⟩⟩
        "s" 7 true (fun _ => true)).status = 201 ∧
    (handlePush ⟨[⟨"e1", "a", 1, "text", "hi", "h"⟩], []⟩
        ⟨"POST", "s", "", some ⟨"e1", "a", 1, "text", "hi", "h"⟩⟩
        "s" 7 true (fun _ => true)).state.table =
      [⟨"e1", "a", 1, "text", "hi", "h"⟩] ∧
    GetRecentEvents (handlePush ⟨[⟨"e1", "a", 1, "text", "hi", "h"⟩], []⟩
        ⟨"POST", "s", "", some ⟨"e1", "a", 1, "text", "hi", "h"⟩⟩
        "s" 7 true (fun _ => true)).state.table 50 =
      GetRecentEvents [⟨"e1", "a", 1, "text", "hi", "h"⟩] 50 :=
  c4_duplicate_insert ⟨[⟨"e1", "a", 1, "text", "hi", "h"⟩], []⟩
    ⟨"POST", "s", "", some ⟨"e1", "a", 1, "text", "hi", "h"⟩⟩
    "s" 7 (fun _ => true) ⟨"e1", "a", 1, "text", "hi", "h"⟩
    rfl (by decide) rfl (by decide)

/-! ## Claim C6: the poll tick -/

/-- After adding `x` and then `y` at the same instant, both map to
that instant. -/
theorem lookupId_Add_Add (c : Cache) (x y : String) (t : Nat) :
    lookupId ((c.Add x t).Add y t).events x = some t ∧
    lookupId ((c.Add x t).Add y t).events y = some t := by
  refine ⟨?_, lookupId_Add _ y t⟩
  by_cases hxy : x = y
  · subst hxy
    exact lookupId_Add _ x t
  · simp [Cache.Add, lookupId, List.filter_cons, hxy, Ne.symm hxy]

/-- Claim C6: on a poll tick, an empty or unchanged hash leaves the
state untouched with no push; otherwise `lastHash` is set to the new
hash as the first step; a cached hash suppresses the push; and a push
happens exactly when the hash is fresh, uncached and the payload
non-empty — in which case the event's id and text hash enter the
cache before `PushToHub` is called. -/
theorem c6_poll_tick (st : PollState) (clip1 clip2 deviceID eid : String)
    (now : Nat) :
    (GetClipboardHash clip1 = "" ∨ GetClipboardHash clip1 = st.lastHash →
      handleClipboardPoll st clip1 clip2 deviceID eid now = (st, [])) ∧
    (¬ (GetClipboardHash clip1 = "" ∨ GetClipboardHash clip1 = st.lastHash) →
      (handleClipboardPoll st clip1 clip2 deviceID eid now).1.lastHash =
        GetClipboardHash clip1 ∧
      ∃ tr, (handleClipboardPoll st clip1 clip2 deviceID eid now).2 =
        AgentStep.updateLast (GetClipboardHash clip1) :: tr) ∧
    ((st.cache.Contains (GetClipboardHash clip1) now).1 = true →
      ∀ e, AgentStep.pushCall e ∉
        (handleClipboardPoll st clip1 clip2 deviceID eid now).2) ∧
    (∀ e, AgentStep.pushCall e ∈
        (handleClipboardPoll st clip1 clip2 deviceID eid now).2 →
      GetClipboardHash clip1 ≠ "" ∧ GetClipboardHash clip1 ≠ st.lastHash ∧
      (st.cache.Contains (GetClipboardHash clip1) now).1 = false ∧ clip2 ≠ "" ∧
      e = Event.SetTextHash ⟨eid, deviceID, now, "text", clip2, ""⟩ ∧
      (handleClipboardPoll st clip1 clip2 deviceID eid now).2 =
        [AgentStep.updateLast (GetClipboardHash clip1),
         AgentStep.cacheAdd e.event_id, AgentStep.cacheAdd e.text_hash,
         AgentStep.pushCall e] ∧
      lookupId (handleClipboardPoll st clip1 clip2 deviceID eid now).1.cache.events
        e.event_id = some now ∧
      lookupId (handleClipboardPoll st clip1 clip2 deviceID eid now).1.cache.events
        e.text_hash = some now) := by
  by_cases hskip : GetClipboardHash clip1 = "" ∨ GetClipboardHash clip1 = st.lastHash
  · have hres : handleClipboardPoll st clip1 clip2 deviceID eid now = (st, []) := by
      unfold handleClipboardPoll
      simp [hskip]
    refine ⟨fun _ => hres, fun hn => absurd hskip hn, ?_, ?_⟩
    · intro _ e
      rw [hres]
      simp
    · intro e he
      rw [hres] at he
      simp at he
  · rcases hcc : st.cache.Contains (GetClipboardHash clip1) now with ⟨b, c1⟩
    cases b
    · by_cases hc2 : clip2 = ""
      · have hres : handleClipboardPoll st clip1 clip2 deviceID eid now =
            (⟨GetClipboardHash clip1, c1⟩,
             [AgentStep.updateLast (GetClipboardHash clip1)]) := by
          unfold handleClipboardPoll
          simp [hskip, hcc, hc2]
        refine ⟨fun h => absurd h hskip, fun _ => ?_, ?_, ?_⟩
        · rw [hres]
          exact ⟨rfl, [], rfl⟩
        · intro hf
          simp at hf
        · intro e he
          rw [hres] at he
          simp at he
      · have hres : handleClipboardPoll st clip1 clip2 deviceID eid now =
            (⟨GetClipboardHash clip1,
              (c1.Add eid now).Add (sha256hex clip2) now⟩,
             [AgentStep.updateLast (GetClipboardHash clip1),
              AgentStep.cacheAdd eid, AgentStep.cacheAdd (sha256hex clip2),
              AgentStep.pushCall
                (Event.SetTextHash ⟨eid, deviceID, now, "text", clip2, ""⟩)]) := by
          unfold handleClipboardPoll
          simp [hskip, hcc, hc2, Event.SetTextHash, Event.ComputeTextHash]
        refine ⟨fun h => absurd h hskip, fun _ => ?_, ?_, ?_⟩
        · rw [hres]
          exact ⟨rfl, _, rfl⟩
        · intro hf
          simp at hf
        · intro e he
          rw [hres] at he
          have hid : e = Event.SetTextHash ⟨eid, deviceID, now, "text", clip2, ""⟩ := by
            simpa using he
          subst hid
          push_neg at hskip
          refine ⟨hskip.1, hskip.2, rfl, hc2, rfl, ?_, ?_, ?_⟩
          · rw [hres]
            simp [Event.SetTextHash, Event.ComputeTextHash]
          · rw [hres]
            exact (lookupId_Add_Add c1 eid (sha256hex clip2) now).1
          · rw [hres]
            exact (lookupId_Add_Add c1 eid (sha256hex clip2) now).2
    · have hres : handleClipboardPoll st clip1 clip2 deviceID eid now =
          (⟨GetClipboardHash clip1, c1⟩,
           [AgentStep.updateLast (GetClipboardHash clip1)]) := by
        unfold handleClipboardPoll
        simp [hskip, hcc]
      refine ⟨fun h => absurd h hskip, fun _ => ?_, ?_, ?_⟩
      · rw [hres]
        exact ⟨rfl, [], rfl⟩
      · intro _ e
        rw [hres]
        simp
      · intro e he
        rw [hres] at he
        simp at he

/-- Claim C6, witness: a fresh non-empty clipboard content is pushed,
with the event id and text hash cached first. -/
theorem c6_poll_tick_witness :
    GetClipboardHash "hi" ≠ "" ∧ GetClipboardHash "hi" ≠ "old" ∧
    ((newRecentEventCache 300).Contains (GetClipboardHash "hi") 4).1 = false ∧
    "hi" ≠ "" ∧
    Event.SetTextHash ⟨"id1", "dev", 4, "text", "hi", ""⟩ =
      Event.SetTextHash ⟨"id1", "dev", 4, "text", "hi", ""⟩ ∧
    (handleClipboardPoll ⟨"old", newRecentEventCache 300⟩ "hi" "hi" "dev" "id1" 4).2 =
      [AgentStep.updateLast (GetClipboardHash "hi"),
       AgentStep.cacheAdd (Event.SetTextHash ⟨"id1", "dev", 4, "text", "hi", ""⟩).event_id,
       AgentStep.cacheAdd (Event.SetTextHash ⟨"id1", "dev", 4, "text", "hi", ""⟩).text_hash,
       AgentStep.pushCall (Event.SetTextHash ⟨"id1", "dev", 4, "text", "hi", ""⟩)] ∧
    lookupId (handleClipboardPoll ⟨"old", newRecentEventCache 300⟩
        "hi" "hi" "dev" "id1" 4).1.cache.events
      (Event.SetTextHash ⟨"id1", "dev", 4, "text", "hi", ""⟩).event_id = some 4 ∧
    lookupId (handleClipboardPoll ⟨"old", newRecentEventCache 300⟩
        "hi" "hi" "dev" "id1" 4).1.cache.events
      (Event.SetTextHash ⟨"id1", "dev", 4, "text", "hi", ""⟩).text_hash = some 4 :=
  (c6_poll_tick ⟨"old", newRecentEventCache 300⟩ "hi" "hi" "dev" "id1" 4).2.2.2
    (Event.SetTextHash ⟨"id1", "dev", 4, "text", "hi", ""⟩) (by decide)

end TailClip
